import Mathlib

/-
  Verification development for the bookbind EPUB creation library.

  The definitions below are a shallow embedding of the module
  src/bookbind/bookbind.py (version 0.5.1, the module shipped by setup.py).
  Python strings are modelled as lists of characters; Python dictionaries
  are modelled as association lists in insertion order; file system access,
  subprocess invocation, Markdown conversion, typographic normalization and
  Jinja template rendering are external collaborators and are modelled as
  components of an explicit environment record.  Fallible code returns
  Except values over an error type that mirrors the BinderError codes and
  the fatal exits of the module.
-/

namespace Bookbind

/-- Python strings are modelled as lists of characters. -/
abbrev Str := List Char

/-- Convert a Lean string literal into the character list model. -/
def str (s : String) : Str := s.data

/-- Model of the whitespace class stripped by the Python str.strip method
and matched by a whitespace character in a strptime format (ASCII subset). -/
def wsChar (c : Char) : Bool :=
  c.toNat = 32 || c.toNat = 9 || c.toNat = 10 || c.toNat = 13 || c.toNat = 11 || c.toNat = 12

/-- Model of Python str.lower on one character (ASCII range, as produced by
the filenames and metadata keys the module manipulates). -/
def pyLowerChar (c : Char) : Char :=
  if 65 ≤ c.toNat ∧ c.toNat ≤ 90 then Char.ofNat (c.toNat + 32) else c

/-- Model of Python str.upper on one character (ASCII range). -/
def pyUpperChar (c : Char) : Char :=
  if 97 ≤ c.toNat ∧ c.toNat ≤ 122 then Char.ofNat (c.toNat - 32) else c

/-- Model of Python str.lower. -/
def pyLower (s : Str) : Str := s.map pyLowerChar

/-- Model of Python str.upper. -/
def pyUpper (s : Str) : Str := s.map pyUpperChar

/-- Model of Python str.lstrip with no argument. -/
def pyLstrip (s : Str) : Str := s.dropWhile wsChar

/-- Model of Python str.rstrip with no argument. -/
def pyRstrip (s : Str) : Str := (s.reverse.dropWhile wsChar).reverse

/-- Model of Python str.strip with no argument: both ends trimmed. -/
def pyStrip (s : Str) : Str := pyRstrip (pyLstrip s)

/-- Model of value.translate(None, deleted): delete every occurrence of the
given characters.  The module uses it with the two characters hyphen and
space. -/
def pyTranslateDel (s : Str) : Str :=
  s.filter (fun c => !(c = '-' || c = ' '))

/-- Split a list at the last occurrence of the character sep: when sep occurs,
returns the part before the last occurrence and the part after it (which is
sep free). -/
def splitLast (sep : Char) : Str → Option (Str × Str)
  | [] => none
  | c :: cs =>
    match splitLast sep cs with
    | some (b, a) => some (c :: b, a)
    | none => if c = sep then some ([], cs) else none

/-- Model of os.path.splitext (posix flavour, as used by the module): the
extension starts at the last dot of the final path component, except that a
component consisting only of leading dots has no extension. -/
def splitext (p : Str) : Str × Str :=
  let db : Str × Str :=
    match splitLast '/' p with
    | some (d, b) => (d ++ ['/'], b)
    | none => ([], p)
  match splitLast '.' db.2 with
  | some (stem, ex) =>
      if stem.any (fun c => c ≠ '.') then (db.1 ++ stem, '.' :: ex) else (p, [])
  | none => (p, [])

/-- Final path component of a path, as os.path.splitext scans it. -/
def basename (p : Str) : Str :=
  match splitLast '/' p with
  | some (_, b) => b
  | none => p

/-- Embedding of make_id from src/bookbind/bookbind.py: strip the extension,
lower case and trim the remainder. -/
def make_id (fullname : Str) : Str :=
  pyStrip (pyLower (splitext fullname).1)

/-- Association list lookup, modelling a Python dictionary read (keys are
unique in a dictionary, so first match is the match). -/
def alookup {α : Type} (k : Str) : List (Str × α) → Option α
  | [] => none
  | (k', v) :: rest => if k' = k then some v else alookup k rest

/-- Association list update, modelling a Python dictionary assignment:
replace the value when the key is present, append otherwise. -/
def aset {α : Type} (k : Str) (v : α) : List (Str × α) → List (Str × α)
  | [] => [(k, v)]
  | (k', v') :: rest => if k' = k then (k, v) :: rest else (k', v') :: aset k v rest

/-- One chapter record of the manifest book list. -/
structure Chapter where
  file : Str
  title : Option Str := none
  linear : Option Bool := none
  stylesheet : Option Str := none
deriving DecidableEq, Repr

/-- The manifest record loaded from manifest.yaml.  The processors mapping is
part of the on disk manifest format; whether the code reads it is one of the
claims under test. -/
structure Manifest where
  metadata : List (Str × Str)
  book : List Chapter
  cover : Option Str := none
  stylesheet : Option Str := none
  processors : List (Str × Str) := []
deriving DecidableEq, Repr

/-- The Binder configuration dictionary: string valued entries (static,
templates, styles, and the title, author and uid entries that
generate_metadata stores) plus the processors mapping. -/
structure Config where
  table : List (Str × Str) := []
  processors : List (Str × Str) := []
deriving DecidableEq, Repr

/-- Error outcomes of a run: the BinderError codes raised by the module plus
the fatal conditions (bare ValueError on an unparseable date, sys.exit(1) on
processor, read and Markdown failures, KeyError on a missing config entry). -/
inductive Err where
  | dateFormatUnrecognized
  | weirdFile (file : Str)
  | externalProcessorFailure
  | chapterReadFailure
  | markdownFailure
  | keyError (k : Str)
  | readFailure (path : Str)
deriving DecidableEq, Repr

/-- One navmap entry produced by generate_navmap. -/
structure NavPoint where
  file : Str
  title : Str
  id : Str
deriving DecidableEq, Repr

/-- The four template render calls the module performs, with the exact
context each passes; rendering itself is the external Jinja collaborator. -/
inductive TemplateCall where
  | contentOpf (metadata manifestItems spineItems : List Str) (cover : Option Str)
  | tocNcx (title author uid : Str) (navmap : List NavPoint)
  | chapterXhtml (content : Str) (stylesheet : Str) (title : Option Str)
  | coverXhtml (image : Str) (title : Str)
deriving DecidableEq, Repr

/-- Compression mode of an archive member. -/
inductive Mode where
  | stored
  | deflated
deriving DecidableEq, Repr

/-- One member of the produced EPUB zip archive, in write order. -/
structure Member where
  name : Str
  mode : Mode
  content : Str
deriving DecidableEq, Repr

/-- The external collaborators of a run: the source directory, file system
reads, directory listings, readability tests, subprocess capture, the
Markdown and smartyPants converters, template rendering, and the value
uuid.uuid4().urn would produce for this run. -/
structure Env where
  source_dir : Str
  readFile : Str → Option Str
  listdir : Str → List Str
  readable : Str → Bool
  check_output : List Str → Option Str
  markdown : Str → Option Str
  smarty : Str → Str
  render : TemplateCall → Str
  freshUrn : Str

/-- Join a list of strings with a separator, as str.join does. -/
def strJoin (sep : Str) : List Str → Str
  | [] => []
  | [x] => x
  | x :: xs => x ++ sep ++ strJoin sep xs

/-- Model of Python str.split with a one character separator and no limit. -/
def pySplitChar (sep : Char) : Str → List Str
  | [] => [[]]
  | c :: rest =>
    match pySplitChar sep rest with
    | [] => if c = sep then [[], []] else [[c]]
    | h :: t => if c = sep then [] :: h :: t else (c :: h) :: t

/-- Model of str.format with one positional placeholder pair of braces,
as used on a processor command template. -/
def pyFormat (tpl arg : Str) : Str :=
  match tpl with
  | '{' :: '}' :: rest => arg ++ pyFormat rest arg
  | c :: rest => c :: pyFormat rest arg
  | [] => []

/-- Helper for the no argument str.split: accumulate the current word. -/
def splitWsAux : Str → Str → List Str
  | cur, [] => if cur = [] then [] else [cur.reverse]
  | cur, c :: rest =>
    if wsChar c then
      if cur = [] then splitWsAux [] rest else cur.reverse :: splitWsAux [] rest
    else splitWsAux (c :: cur) rest

/-- Model of Python str.split with no argument: split on whitespace runs,
discarding empty fields. -/
def pySplitWs (s : Str) : List Str := splitWsAux [] s

/-- The flip lambda of dublin_remap: convert a Last, First string into
First Last, via the exact split, rstrip, lstrip and strip combination of the
source. -/
def dcFlip (x : Str) : Str :=
  let parts := pySplitChar ',' (x ++ [','])
  pyStrip (pyRstrip (parts.getD 1 []) ++ [' '] ++ pyLstrip (parts.getD 0 []))

/-- The class attribute mime_map of the Binder class: extension to MIME type,
keys written exactly as in the source (all lower case). -/
def mime_map : List (Str × Str) :=
  [ (str ".js", str "application/javascript")
  , (str ".mp3", str "audio/mpeg")
  , (str ".ogg", str "audio/ogg")
  , (str ".gif", str "image/gif")
  , (str ".jpg", str "image/jpeg")
  , (str ".jpeg", str "image/jpeg")
  , (str ".png", str "image/png")
  , (str ".svg", str "image/svg+xml")
  , (str ".html", str "application/xhtml+xml")
  , (str ".txt", str "text/plain")
  , (str ".xml", str "text/xml")
  , (str ".css", str "text/css")
  , (str ".xhtml", str "application/xhtml+xml")
  , (str ".otf", str "application/x-font-otf")
  , (str ".ttf", str "application/x-font-ttf")
  , (str ".mp4", str "audio/mp4")
  , (str ".m4v", str "video/mpeg4")
  , (str ".qt", str "video/quicktime")
  , (str ".webm", str "video/webm") ]

/-- The class attribute remap_values: metadata key to Dublin Core element and
role code. -/
def remap_values : List (Str × (Str × Str)) :=
  [ (str "author", (str "creator", str "aut"))
  , (str "editor", (str "contributor", str "edt"))
  , (str "publisher-person", (str "contributor", str "pbl"))
  , (str "designer", (str "contributor", str "bkd")) ]

/-- The class attribute date_formats, in order. -/
def date_formats : List Str :=
  [str "%B %Y", str "%b %Y", str "%B, %Y", str "%b, %Y", str "%Y-%b", str "%Y-%m"]

/-- Full month names as the strptime locale tables hold them (lower case). -/
def monthNamesFull : List (Str × Nat) :=
  [ (str "january", 1), (str "february", 2), (str "march", 3), (str "april", 4)
  , (str "may", 5), (str "june", 6), (str "july", 7), (str "august", 8)
  , (str "september", 9), (str "october", 10), (str "november", 11)
  , (str "december", 12) ]

/-- Abbreviated month names as the strptime locale tables hold them. -/
def monthNamesAbbr : List (Str × Nat) :=
  [ (str "jan", 1), (str "feb", 2), (str "mar", 3), (str "apr", 4)
  , (str "may", 5), (str "jun", 6), (str "jul", 7), (str "aug", 8)
  , (str "sep", 9), (str "oct", 10), (str "nov", 11), (str "dec", 12) ]

/-- Match one month name of the table as a prefix of the input (the tables
are prefix free, so first match is the regex match). -/
def monthScan : List (Str × Nat) → Str → Option (Nat × Str)
  | [], _ => none
  | (name, num) :: rest, s =>
    if name.isPrefixOf s then some (num, s.drop name.length) else monthScan rest s

/-- The strptime directive %Y: exactly four digits. -/
def take4Digits : Str → Option (Nat × Str)
  | c1 :: c2 :: c3 :: c4 :: rest =>
    if c1.isDigit && c2.isDigit && c3.isDigit && c4.isDigit then
      some ((c1.toNat - 48) * 1000 + (c2.toNat - 48) * 100 +
            (c3.toNat - 48) * 10 + (c4.toNat - 48), rest)
    else none
  | _ => none

/-- Mini strptime matcher covering exactly the directives of date_formats:
%B and %b month names, %Y four digits, %m month number (alternation of two
digit forms before the one digit form), literal whitespace matching a
whitespace run, other literals matching exactly; the whole input must be
consumed, as strptime checks the match end against the input length.  The
state carries the year and month found so far. -/
def matchFmt : Str → Str → Option Nat × Option Nat → Option (Option Nat × Option Nat)
  | [], s, st => if s = [] then some st else none
  | '%' :: 'B' :: fr, s, st =>
    (match monthScan monthNamesFull s with
     | some (m, rest) => matchFmt fr rest (st.1, some m)
     | none => none)
  | '%' :: 'b' :: fr, s, st =>
    (match monthScan monthNamesAbbr s with
     | some (m, rest) => matchFmt fr rest (st.1, some m)
     | none => none)
  | '%' :: 'Y' :: fr, s, st =>
    (match take4Digits s with
     | some (y, rest) => matchFmt fr rest (some y, st.2)
     | none => none)
  | '%' :: 'm' :: fr, s, st =>
    (match s with
     | c1 :: c2 :: rest =>
       if c1 = '1' && (c2 = '0' || c2 = '1' || c2 = '2') then
         matchFmt fr rest (st.1, some (10 + (c2.toNat - 48)))
       else none
     | _ => none) <|>
    (match s with
     | c1 :: c2 :: rest =>
       if c1 = '0' && ('1' ≤ c2 && c2 ≤ '9') then
         matchFmt fr rest (st.1, some (c2.toNat - 48))
       else none
     | _ => none) <|>
    (match s with
     | c1 :: rest =>
       if '1' ≤ c1 && c1 ≤ '9' then matchFmt fr rest (st.1, some (c1.toNat - 48))
       else none
     | _ => none)
  | c :: fr, s, st =>
    if wsChar c then
      let rest := s.dropWhile wsChar
      if rest.length < s.length then matchFmt fr rest st else none
    else
      match s with
      | c2 :: rest => if c2 = c then matchFmt fr rest st else none
      | [] => none

/-- Model of datetime.strptime restricted to the year and month fields: the
regex match is case insensitive (the input is lowered), missing fields take
the documented defaults, and datetime construction requires a positive year. -/
def strptimeYM (fmt v : Str) : Option (Nat × Nat) :=
  match matchFmt fmt (pyLower v) (none, none) with
  | some (oy, om) =>
    let y := oy.getD 1900
    let m := om.getD 1
    if 1 ≤ y then some (y, m) else none
  | none => none

/-- Model of stamp.strftime with the %Y-%m format: the year as written by the
platform strftime, the month zero padded to two digits. -/
def ymStr (y m : Nat) : Str :=
  (Nat.repr y).data ++ ['-'] ++ (if m < 10 then '0' :: (Nat.repr m).data else (Nat.repr m).data)

/-- One iteration of the date loop of generate_metadata: strptime then
strftime inside one try block; Python 2 strftime raises ValueError for years
before 1900, which the loop also catches and treats as a format mismatch. -/
def tryFormat (fmt v : Str) : Option Str :=
  match strptimeYM fmt v with
  | some (y, m) => if 1900 ≤ y then some (ymStr y m) else none
  | none => none

/-- The date loop of generate_metadata: first format of date_formats that
parses wins. -/
def firstDate : List Str → Str → Option Str
  | [], _ => none
  | f :: fs, v =>
    match tryFormat f v with
    | some r => some r
    | none => firstDate fs v

/-- Normalization applied to a metadata date value: the ordered format list
is tried in order and the first success is rendered as year dash month; none
means the bare ValueError raise of the source. -/
def normalizeDate (v : Str) : Option Str := firstDate date_formats v

/-- Embedding of dublin_remap: remap a bookbinder metadata key to a Dublin
Core element, adding the file-as and role attributes and flipping the value. -/
def dublin_remap (attr : List Str) (elem value : Str) : List Str × Str × Str :=
  match alookup elem remap_values with
  | some dc =>
    ( attr ++ [str "opf:file-as=\"" ++ value ++ str "\"",
               str "opf:role=\"" ++ dc.2 ++ str "\""]
    , dc.1, dcFlip value)
  | none => (attr, elem, value)

/-- Render one Dublin Core item exactly as the string concatenation of the
source does. -/
def renderItem (elem : Str) (attr : List Str) (value : Str) : Str :=
  let attrs := strJoin (str " ") attr
  let attrs := if attrs ≠ [] then str " " ++ attrs else attrs
  str "<dc:" ++ elem ++ attrs ++ ['>'] ++ value ++ str "</dc:" ++ elem ++ ['>']

/-- One iteration of the metadata emission loop of generate_metadata in
src/bookbind/bookbind.py (version 0.5.1), kept statement for statement: the
author and title config writes, the dublin_remap call, the uuid and isbn
branch in which elem is reassigned to identifier before the scheme attribute
is built and before the isbn test, the date branch, and the default branch. -/
def processEntry (cfg : Config) (kv : Str × Str) : Except Err (Str × Config) :=
  let elem := kv.1
  let value := kv.2
  let cfg := if elem = str "author" ∨ elem = str "title" then
      { cfg with table := aset elem value cfg.table } else cfg
  match dublin_remap [] elem value with
  | (attr, elem, value) =>
    if elem = str "uuid" ∨ elem = str "isbn" then
      let elem := str "identifier"
      let attr := attr ++ [str "id=\"bookid\"",
                           str "opf:scheme=\"" ++ pyUpper elem ++ str "\""]
      let value := if elem = str "isbn" then str "urn:isbn:" ++ pyTranslateDel value
                   else value
      let cfg := { cfg with table := aset (str "uid") value cfg.table }
      .ok (renderItem elem attr value, cfg)
    else if elem = str "date" then
      match normalizeDate value with
      | some newVal => .ok (renderItem elem attr newVal, cfg)
      | none => .error .dateFormatUnrecognized
    else
      .ok (renderItem elem attr value, cfg)

/-- The emission loop of generate_metadata over the metadata mapping in
insertion order, threading the config dictionary. -/
def metaItems : List (Str × Str) → Config → Except Err (List Str × Config)
  | [], cfg => .ok ([], cfg)
  | kv :: rest, cfg => do
    let rc ← processEntry cfg kv
    let rrest ← metaItems rest rc.2
    .ok (rc.1 :: rrest.1, rrest.2)

/-- The defaulting prologue of generate_metadata: inject a fresh uuid when
neither uuid nor isbn is present, then a default language. -/
def mdWithDefaults (md : List (Str × Str)) (fresh : Str) : List (Str × Str) :=
  let md := if (alookup (str "uuid") md).isSome = false ∧
               (alookup (str "isbn") md).isSome = false then
      aset (str "uuid") fresh md else md
  if (alookup (str "language") md).isSome = false then
    aset (str "language") (str "en") md else md

/-- Embedding of generate_metadata of src/bookbind/bookbind.py: defaults are
injected into the metadata mapping of the manifest in place (returned here as
the updated manifest), each entry is emitted through the rewrite rules, and a
cover meta hint is appended when the manifest declares a cover.  The fresh
argument is the urn of the random UUID of this run. -/
def generate_metadata (m : Manifest) (cfg : Config) (fresh : Str) :
    Except Err (List Str × Manifest × Config) := do
  let md := mdWithDefaults m.metadata fresh
  let r ← metaItems md cfg
  let items := r.1 ++
    (match m.cover with
     | some coverFile =>
       [str "<meta name=\"cover\" content=\"images_" ++ (splitext coverFile).1 ++ str "\"/>"]
     | none => [])
  .ok (items, { m with metadata := md }, r.2)

/-- The default MIME lookup of add_assets: the extension exactly as
os.path.splitext produced it, unknown extensions defaulting to the octet
stream type. -/
def assetMime (ex : Str) : Str :=
  (alookup ex mime_map).getD (str "application/octet-stream")

/-- One manifest item produced by add_assets for a file of an asset
directory. -/
def asset_item (dirName myfile : Str) : Str :=
  let ne := splitext myfile
  let mimeType := assetMime ne.2
  let fileId := pyStrip (pyLower (dirName ++ ['_'] ++ ne.1))
  str "<item id=\"" ++ fileId ++ str "\" href=\"" ++ dirName ++ ['/'] ++ myfile ++
    str "\" media-type=\"" ++ mimeType ++ str "\"/>"

/-- The three asset category directory names (class attributes images,
styles, other). -/
def imagesDir : Str := str "images"
def stylesDir : Str := str "styles"
def otherDir : Str := str "assets"

/-- Embedding of add_assets: a synthesized stylesheet item when the declared
or default stylesheet is not readable in the source tree, then one item per
file of each readable asset directory. -/
def add_assets (env : Env) (m : Manifest) (items : List Str) : List Str :=
  let stylesheet := m.stylesheet.getD (str "default.css")
  let items :=
    if env.readable (env.source_dir ++ ['/'] ++ stylesDir ++ ['/'] ++ stylesheet) = false then
      let ne := splitext stylesheet
      let assetId := pyStrip (pyLower (stylesDir ++ ['_'] ++ ne.1))
      items ++ [str "<item id=\"" ++ assetId ++ str "\" href=\"" ++ stylesDir ++ ['/'] ++
                stylesheet ++ str "\" media-type=\"text/css\"/>"]
    else items
  [imagesDir, stylesDir, otherDir].foldl
    (fun items dirName =>
      let fullDir := env.source_dir ++ ['/'] ++ dirName
      if env.readable fullDir then
        items ++ (env.listdir fullDir).map (asset_item dirName)
      else items)
    items

/-- Embedding of generate_manifest_items: the ncx item, a cover item when a
cover is declared, one item per chapter, then the asset items. -/
def generate_manifest_items (env : Env) (m : Manifest) : List Str :=
  let items := [str "<item id=\"ncx\" href=\"toc.ncx\" media-type=\"application/x-dtbncx+xml\"/>"]
  let items := items ++
    (match m.cover with
     | some _ => [str "<item id=\"cover\" href=\"cover.xhtml\" media-type=\"application/xhtml+xml\"/>"]
     | none => [])
  let items := m.book.foldl
    (fun items chapter =>
      let chapterId := make_id chapter.file
      items ++ [str "<item id=\"" ++ chapterId ++ str "\" href=\"" ++ chapterId ++
                str ".xhtml\" media-type=\"application/xhtml+xml\"/>"])
    items
  add_assets env m items

/-- Embedding of generate_spine_items: the cover itemref first when a cover
is declared, then one itemref per chapter of the book list in order. -/
def generate_spine_items (m : Manifest) : List Str :=
  let items : List Str :=
    match m.cover with
    | some _ => [str "<itemref idref=\"cover\"/>"]
    | none => []
  m.book.foldl
    (fun items chapter =>
      items ++ [str "<itemref idref=\"" ++ make_id chapter.file ++ str "\"/>"])
    items

/-- Embedding of generate_navmap: one entry per chapter that has a title and
is not marked linear false, in book order. -/
def generate_navmap (m : Manifest) : List NavPoint :=
  m.book.foldl
    (fun items chapter =>
      if chapter.title.isSome ∧ (chapter.linear.isSome = false ∨ chapter.linear ≠ some false) then
        let chapterId := make_id chapter.file
        items ++ [{ file := chapterId ++ str ".xhtml"
                  , title := chapter.title.getD []
                  , id := chapterId }]
      else items)
    []

/-- The stylesheet path resolved by generate_chapter: chapter level override,
else manifest level override, else the fixed default name. -/
def chapter_stylesheet (m : Manifest) (chapter : Chapter) : Str :=
  stylesDir ++ ['/'] ++ chapter.stylesheet.getD (m.stylesheet.getD (str "default.css"))

/-- Embedding of generate_chapter: dispatch on the lowered extension of the
chapter file, in source order: a configuration processor entry first, then
the Markdown family, then verbatim xhtml, else the WEIRD_FILE error.  The
processor and Markdown branches wrap the body in the chapter template; the
xhtml branch returns the file content unchanged. -/
def generate_chapter (env : Env) (m : Manifest) (cfg : Config) (chapter : Chapter) :
    Except Err Str :=
  let fileExt := pyLower (splitext chapter.file).2
  let stylesheet := chapter_stylesheet m chapter
  match alookup fileExt cfg.processors with
  | some tpl =>
    (match env.check_output (pySplitWs (pyFormat tpl chapter.file)) with
     | some out => .ok (env.render (.chapterXhtml out stylesheet chapter.title))
     | none => .error .externalProcessorFailure)
  | none =>
    if fileExt = str ".md" ∨ fileExt = str ".txt" ∨ fileExt = str ".markdown" then
      match env.readFile (env.source_dir ++ ['/'] ++ chapter.file) with
      | none => .error .chapterReadFailure
      | some text =>
        match env.markdown text with
        | some html => .ok (env.render (.chapterXhtml (env.smarty html) stylesheet chapter.title))
        | none => .error .markdownFailure
    else if fileExt = str ".xhtml" then
      match env.readFile (env.source_dir ++ ['/'] ++ chapter.file) with
      | some text => .ok text
      | none => .error .chapterReadFailure
    else .error (.weirdFile chapter.file)

/-- Lift an optional value into the run, with the error the source would
raise when the value is missing. -/
def ofOpt {α : Type} (o : Option α) (e : Err) : Except Err α :=
  match o with
  | some a => .ok a
  | none => .error e

/-- Embedding of generate_opf: metadata first (which updates the manifest
metadata and the config), then the manifest items, spine items and cover of
the content.opf template context. -/
def generate_opf (env : Env) (m : Manifest) (cfg : Config) :
    Except Err (Str × Manifest × Config) := do
  let r ← generate_metadata m cfg env.freshUrn
  let m1 := r.2.1
  let cfg1 := r.2.2
  .ok (env.render (.contentOpf r.1 (generate_manifest_items env m1)
        (generate_spine_items m1) m1.cover), m1, cfg1)

/-- Embedding of generate_toc: the toc.ncx template rendered with the title,
author and uid entries the metadata pass stored in the config (a missing
entry is a KeyError). -/
def generate_toc (env : Env) (m : Manifest) (cfg : Config) : Except Err Str := do
  let title ← ofOpt (alookup (str "title") cfg.table) (.keyError (str "title"))
  let author ← ofOpt (alookup (str "author") cfg.table) (.keyError (str "author"))
  let uid ← ofOpt (alookup (str "uid") cfg.table) (.keyError (str "uid"))
  .ok (env.render (.tocNcx title author uid (generate_navmap m)))

/-- Embedding of generate_cover: the cover.xhtml template rendered around the
cover image of the manifest. -/
def generate_cover (env : Env) (m : Manifest) (cfg : Config) : Except Err Str := do
  let coverFile ← ofOpt m.cover (.keyError (str "cover"))
  let title ← ofOpt (alookup (str "title") cfg.table) (.keyError (str "title"))
  .ok (env.render (.coverXhtml (imagesDir ++ ['/'] ++ coverFile) title))

/-- Effectful map over a list, in order, stopping at the first error, as the
write loops of make_book do. -/
def mapE {α β : Type} (f : α → Except Err β) : List α → Except Err (List β)
  | [] => .ok []
  | a :: rest => do
    let b ← f a
    let bs ← mapE f rest
    .ok (b :: bs)

/-- The archive members written for one readable asset directory by the
final loop of make_book. -/
def dir_members (env : Env) (dirName : Str) : Except Err (List Member) :=
  let fullDir := env.source_dir ++ ['/'] ++ dirName
  if env.readable fullDir then
    mapE (fun myfile => do
      let content ← ofOpt (env.readFile (fullDir ++ ['/'] ++ myfile))
        (.readFailure (fullDir ++ ['/'] ++ myfile))
      .ok (Member.mk (str "OEBPS/" ++ dirName ++ ['/'] ++ myfile) .deflated content))
      (env.listdir fullDir)
  else .ok []

/-- The asset members of make_book, images then styles then other. -/
def asset_members (env : Env) : Except Err (List Member) := do
  let a ← dir_members env imagesDir
  let b ← dir_members env stylesDir
  let c ← dir_members env otherDir
  .ok (a ++ b ++ c)

/-- The cover wrapper member written by make_book when the manifest declares
a cover. -/
def cover_members (env : Env) (m : Manifest) (cfg : Config) : Except Err (List Member) :=
  match m.cover with
  | some _ => do
    let c ← generate_cover env m cfg
    .ok [Member.mk (str "OEBPS/cover.xhtml") .deflated c]
  | none => .ok []

/-- The bundled fallback stylesheet member written by make_book when the
manifest declares a stylesheet that is not readable in the source tree.  The
member name keeps the leading slash of the sheet variable of the source,
hence the doubled slash. -/
def style_members (env : Env) (m : Manifest) (cfg : Config) : Except Err (List Member) :=
  match m.stylesheet with
  | some sheetName =>
    let sheet := ['/'] ++ stylesDir ++ ['/'] ++ sheetName
    if env.readable (env.source_dir ++ sheet) = false then do
      let stylesLib ← ofOpt (alookup (str "styles") cfg.table) (.keyError (str "styles"))
      let content ← ofOpt (env.readFile (stylesLib ++ ['/'] ++ sheetName))
        (.readFailure (stylesLib ++ ['/'] ++ sheetName))
      .ok [Member.mk (str "OEBPS/" ++ sheet) .deflated content]
    else .ok []
  | none => .ok []

/-- Embedding of make_book: the ordered archive members of a complete run.
The zip file is opened with deflate as its default compression; the mimetype
member is written first and explicitly stored; every later member is written
without an explicit mode and therefore deflated.  Write order follows the
source: mimetype, container, content.opf, toc.ncx, the chapters in book
order, the cover wrapper, the bundled fallback stylesheet, the asset files. -/
def make_book (env : Env) (m : Manifest) (cfg : Config) : Except Err (List Member) := do
  let static ← ofOpt (alookup (str "static") cfg.table) (.keyError (str "static"))
  let container ← ofOpt (env.readFile (static ++ str "/container.xml"))
    (.readFailure (static ++ str "/container.xml"))
  let ropf ← generate_opf env m cfg
  let m1 := ropf.2.1
  let cfg1 := ropf.2.2
  let toc ← generate_toc env m1 cfg1
  let chapters ← mapE (fun chapter => do
      let content ← generate_chapter env m1 cfg1 chapter
      .ok (Member.mk (str "OEBPS/" ++ make_id chapter.file ++ str ".xhtml") .deflated content))
    m1.book
  let coverMembers ← cover_members env m1 cfg1
  let styleMembers ← style_members env m1 cfg1
  let assets ← asset_members env
  .ok (Member.mk (str "mimetype") .stored (str "application/epub+zip") ::
       Member.mk (str "META-INF/container.xml") .deflated container ::
       Member.mk (str "OEBPS/content.opf") .deflated ropf.1 ::
       Member.mk (str "OEBPS/toc.ncx") .deflated toc ::
       (chapters ++ coverMembers ++ styleMembers ++ assets))

/-- Modelled from src/bookbind.py, the legacy top level module of the same
repository: its isbn branch of generate_metadata prefixes the value with
urn:isbn: only when it does not already start with urn:, then deletes
hyphens and spaces. -/
def legacy_isbn_value (v : Str) : Str :=
  pyTranslateDel (if (str "urn:").isPrefixOf v then v else str "urn:isbn:" ++ v)

/-! Helper lemmas about the embedding. -/

/-- Appending one transformed element per iteration is mapping. -/
theorem foldl_append_map {α β : Type} (g : α → β) (l : List α) (init : List β) :
    l.foldl (fun acc a => acc ++ [g a]) init = init ++ l.map g := by
  induction l generalizing init with
  | nil => simp
  | cons a t ih => simp [ih, List.append_assoc]

/-- Conditionally appending one transformed element per iteration is
filtering then mapping. -/
theorem foldl_filter_append {α β : Type} (p : α → Prop) [DecidablePred p] (g : α → β)
    (l : List α) (init : List β) :
    l.foldl (fun acc a => if p a then acc ++ [g a] else acc) init =
      init ++ (l.filter (fun a => decide (p a))).map g := by
  induction l generalizing init with
  | nil => simp
  | cons a t ih =>
    by_cases h : p a
    · simp [h, ih, List.append_assoc]
    · simp [h, ih]

/-- Inversion of a successful bind in the Except monad. -/
theorem bind_ok {α β : Type} {x : Except Err α} {f : α → Except Err β} {b : β}
    (h : x >>= f = .ok b) : ∃ a, x = .ok a ∧ f a = .ok b := by
  cases x with
  | error e => simp [Bind.bind, Except.bind] at h
  | ok a => exact ⟨a, rfl, h⟩

/-- Every element of a successful mapE satisfies any property its producer
guarantees. -/
theorem mapE_ok_forall {α β : Type} {f : α → Except Err β} {P : β → Prop}
    (hf : ∀ a b, f a = .ok b → P b) :
    ∀ {l : List α} {ys : List β}, mapE f l = .ok ys → ∀ y ∈ ys, P y := by
  intro l
  induction l with
  | nil =>
    intro ys h y hy
    unfold mapE at h
    cases h
    simp at hy
  | cons a t ih =>
    intro ys h y hy
    unfold mapE at h
    obtain ⟨b, hb, h2⟩ := bind_ok h
    obtain ⟨bs, hbs, h3⟩ := bind_ok h2
    cases h3
    rcases List.mem_cons.mp hy with h4 | h4
    · exact h4 ▸ hf a b hb
    · exact ih hbs y h4

/-- A member name starting with an upper case letter O is not mimetype. -/
theorem ne_mimetype_of_headO {nm : Str} (h : nm.head? = some 'O') :
    nm ≠ str "mimetype" := by
  intro he
  rw [he] at h
  exact absurd h (by decide)

/-- A member name starting with an upper case letter M is not mimetype. -/
theorem ne_mimetype_of_headM {nm : Str} (h : nm.head? = some 'M') :
    nm ≠ str "mimetype" := by
  intro he
  rw [he] at h
  exact absurd h (by decide)

/-- Every member produced by dir_members is deflated and is not the mimetype
member. -/
theorem dir_members_forall (env : Env) (d : Str) {ys : List Member}
    (h : dir_members env d = .ok ys) :
    ∀ y ∈ ys, y.mode = .deflated ∧ y.name ≠ str "mimetype" := by
  unfold dir_members at h
  by_cases hr : env.readable (env.source_dir ++ ['/'] ++ d) = true
  · rw [if_pos hr] at h
    refine mapE_ok_forall ?_ h
    intro a b hb
    obtain ⟨content, _, h2⟩ := bind_ok hb
    cases h2
    exact ⟨rfl, ne_mimetype_of_headO rfl⟩
  · rw [if_neg hr] at h
    cases h
    intro y hy
    simp at hy

/-- Every member produced by cover_members is deflated and is not the
mimetype member. -/
theorem cover_members_forall (env : Env) (m : Manifest) (cfg : Config) {ys : List Member}
    (h : cover_members env m cfg = .ok ys) :
    ∀ y ∈ ys, y.mode = .deflated ∧ y.name ≠ str "mimetype" := by
  unfold cover_members at h
  split at h
  · obtain ⟨cv, _, h2⟩ := bind_ok h
    cases h2
    intro y hy
    simp at hy
    subst hy
    exact ⟨rfl, ne_mimetype_of_headO rfl⟩
  · cases h
    intro y hy
    simp at hy

/-- Every member produced by style_members is deflated and is not the
mimetype member. -/
theorem style_members_forall (env : Env) (m : Manifest) (cfg : Config) {ys : List Member}
    (h : style_members env m cfg = .ok ys) :
    ∀ y ∈ ys, y.mode = .deflated ∧ y.name ≠ str "mimetype" := by
  unfold style_members at h
  split at h
  · dsimp only at h
    split at h
    · obtain ⟨lib, _, h2⟩ := bind_ok h
      obtain ⟨content, _, h3⟩ := bind_ok h2
      cases h3
      intro y hy
      simp at hy
      subst hy
      exact ⟨rfl, ne_mimetype_of_headO rfl⟩
    · cases h
      intro y hy
      simp at hy
  · cases h
    intro y hy
    simp at hy

/-- Every member produced by asset_members is deflated and is not the
mimetype member. -/
theorem asset_members_forall (env : Env) {ys : List Member}
    (h : asset_members env = .ok ys) :
    ∀ y ∈ ys, y.mode = .deflated ∧ y.name ≠ str "mimetype" := by
  unfold asset_members at h
  obtain ⟨a, ha, h⟩ := bind_ok h
  obtain ⟨b, hb, h⟩ := bind_ok h
  obtain ⟨c, hc, h⟩ := bind_ok h
  cases h
  intro y hy
  rcases List.mem_append.mp hy with h4 | h4
  · rcases List.mem_append.mp h4 with h5 | h5
    · exact dir_members_forall env imagesDir ha y h5
    · exact dir_members_forall env stylesDir hb y h5
  · exact dir_members_forall env otherDir hc y h4

/-- Lookup after an update with a different key is unchanged. -/
theorem alookup_aset_ne {α : Type} (k k' : Str) (v : α) (md : List (Str × α))
    (h : k ≠ k') : alookup k (aset k' v md) = alookup k md := by
  have hne : ¬(k' = k) := fun he => h he.symm
  induction md with
  | nil =>
    simp only [aset, alookup]
    rw [if_neg hne]
  | cons kv t ih =>
    obtain ⟨a, b⟩ := kv
    by_cases hk : a = k'
    · subst hk
      simp only [aset, if_pos rfl, alookup]
      rw [if_neg hne, if_neg hne]
    · simp only [aset, if_neg hk, alookup]
      by_cases ha : a = k
      · rw [if_pos ha, if_pos ha]
      · rw [if_neg ha, if_neg ha]
        exact ih

/-- The defaulting prologue leaves every key other than uuid and language
unchanged. -/
theorem alookup_mdWithDefaults_ne (md : List (Str × Str)) (u : Str) (k : Str)
    (h1 : k ≠ str "uuid") (h2 : k ≠ str "language") :
    alookup k (mdWithDefaults md u) = alookup k md := by
  unfold mdWithDefaults
  by_cases c1 : (alookup (str "uuid") md).isSome = false ∧
      (alookup (str "isbn") md).isSome = false
  · rw [if_pos c1]
    by_cases c2 : (alookup (str "language") (aset (str "uuid") u md)).isSome = false
    · rw [if_pos c2, alookup_aset_ne k (str "language") _ _ h2,
        alookup_aset_ne k (str "uuid") _ _ h1]
    · rw [if_neg c2, alookup_aset_ne k (str "uuid") _ _ h1]
  · rw [if_neg c1]
    by_cases c2 : (alookup (str "language") md).isSome = false
    · rw [if_pos c2, alookup_aset_ne k (str "language") _ _ h2]
    · rw [if_neg c2]

/-- Equality of run outcomes is decidable, so concrete runs can be settled
by evaluation. -/
instance {ε α : Type} [DecidableEq ε] [DecidableEq α] : DecidableEq (Except ε α) := fun x y =>
  match x, y with
  | .error e, .error f =>
    if h : e = f then .isTrue (h ▸ rfl) else .isFalse (by intro hc; injection hc; exact h ‹_›)
  | .ok a, .ok b =>
    if h : a = b then .isTrue (h ▸ rfl) else .isFalse (by intro hc; injection hc; exact h ‹_›)
  | .error _, .ok _ => .isFalse (by intro hc; exact Except.noConfusion hc)
  | .ok _, .error _ => .isFalse (by intro hc; exact Except.noConfusion hc)

/-! Lemmas about lower casing and stripping, toward the make_id claims. -/

/-- Lower casing an upper case ASCII code point lands on the expected code
point. -/
theorem char_ofNat_toNat_add32 (n : Nat) (h1 : 65 ≤ n) (h2 : n ≤ 90) :
    (Char.ofNat (n + 32)).toNat = n + 32 := by
  interval_cases n <;> decide

/-- A character outside the upper case ASCII range is fixed by lower
casing. -/
theorem pyLowerChar_eq_self_of_not (c : Char) (h : ¬(65 ≤ c.toNat ∧ c.toNat ≤ 90)) :
    pyLowerChar c = c := by
  unfold pyLowerChar
  rw [if_neg h]

/-- A character inside the upper case ASCII range is shifted by lower
casing. -/
theorem pyLowerChar_eq_of (c : Char) (h : 65 ≤ c.toNat ∧ c.toNat ≤ 90) :
    pyLowerChar c = Char.ofNat (c.toNat + 32) := by
  unfold pyLowerChar
  rw [if_pos h]

/-- Lower casing one character is idempotent. -/
theorem pyLowerChar_idem (c : Char) : pyLowerChar (pyLowerChar c) = pyLowerChar c := by
  by_cases h : 65 ≤ c.toNat ∧ c.toNat ≤ 90
  · rw [pyLowerChar_eq_of c h]
    exact pyLowerChar_eq_self_of_not _
      (by rw [char_ofNat_toNat_add32 c.toNat h.1 h.2]; omega)
  · rw [pyLowerChar_eq_self_of_not c h]
    exact pyLowerChar_eq_self_of_not c h

/-- A letter is not whitespace. -/
theorem ws_false_of_range (c : Char)
    (h : 65 ≤ c.toNat ∧ c.toNat ≤ 90 ∨ 97 ≤ c.toNat ∧ c.toNat ≤ 122) :
    wsChar c = false := by
  simp only [wsChar, Bool.or_eq_false_iff, decide_eq_false_iff_not]
  omega

/-- Lower casing does not change whether a character is whitespace. -/
theorem wsChar_pyLowerChar (c : Char) : wsChar (pyLowerChar c) = wsChar c := by
  by_cases h : 65 ≤ c.toNat ∧ c.toNat ≤ 90
  · rw [pyLowerChar_eq_of c h]
    rw [ws_false_of_range c (Or.inl h)]
    exact ws_false_of_range _
      (Or.inr (by rw [char_ofNat_toNat_add32 c.toNat h.1 h.2]; omega))
  · rw [pyLowerChar_eq_self_of_not c h]

/-- Lower casing a string is idempotent. -/
theorem pyLower_pyLower (s : Str) : pyLower (pyLower s) = pyLower s := by
  induction s with
  | nil => rfl
  | cons c t ih =>
    show pyLowerChar (pyLowerChar c) :: pyLower (pyLower t) = pyLowerChar c :: pyLower t
    rw [pyLowerChar_idem, ih]

/-- Dropping a prefix twice is dropping it once. -/
theorem dropWhile_dropWhile {α : Type} (p : α → Bool) (l : List α) :
    (l.dropWhile p).dropWhile p = l.dropWhile p := by
  induction l with
  | nil => rfl
  | cons b t ih =>
    rw [List.dropWhile_cons]
    by_cases hb : p b = true
    · rw [if_pos hb]
      exact ih
    · rw [if_neg hb, List.dropWhile_cons, if_neg hb]

/-- The head surviving a dropWhile fails the predicate. -/
theorem head?_dropWhile_false {α : Type} (p : α → Bool) :
    ∀ (l : List α) (a : α), (l.dropWhile p).head? = some a → p a = false := by
  intro l
  induction l with
  | nil =>
    intro a h
    simp at h
  | cons b t ih =>
    intro a h
    rw [List.dropWhile_cons] at h
    by_cases hb : p b = true
    · rw [if_pos hb] at h
      exact ih a h
    · rw [if_neg hb] at h
      simp only [List.head?_cons, Option.some.injEq] at h
      subst h
      cases hpb : p b with
      | true => exact absurd hpb hb
      | false => rfl

/-- A list whose head fails the predicate is fixed by dropWhile. -/
theorem dropWhile_eq_self_of_head {α : Type} (p : α → Bool) (l : List α)
    (hh : ∀ a, l.head? = some a → p a = false) : l.dropWhile p = l := by
  cases l with
  | nil => rfl
  | cons b t =>
    have hb := hh b rfl
    rw [List.dropWhile_cons, if_neg (by rw [hb]; exact Bool.false_ne_true)]

/-- A nonempty dropWhile keeps the last element. -/
theorem getLast?_dropWhile {α : Type} (p : α → Bool) (l : List α)
    (h : l.dropWhile p ≠ []) : (l.dropWhile p).getLast? = l.getLast? := by
  conv_rhs => rw [← @List.takeWhile_append_dropWhile _ p l]
  rw [List.getLast?_append_of_ne_nil _ h]

/-- Right stripping is idempotent. -/
theorem pyRstrip_pyRstrip (s : Str) : pyRstrip (pyRstrip s) = pyRstrip s := by
  unfold pyRstrip
  rw [List.reverse_reverse, dropWhile_dropWhile]

/-- A stripped string has no leading whitespace left. -/
theorem pyLstrip_pyStrip (l : Str) : pyLstrip (pyStrip l) = pyStrip l := by
  apply dropWhile_eq_self_of_head
  intro a ha
  rw [pyStrip, pyRstrip, List.head?_reverse] at ha
  have hne : (pyLstrip l).reverse.dropWhile wsChar ≠ [] := by
    intro he
    rw [he] at ha
    simp at ha
  rw [getLast?_dropWhile wsChar _ hne, List.getLast?_reverse] at ha
  exact head?_dropWhile_false wsChar l a ha

/-- Stripping is idempotent. -/
theorem pyStrip_idem (l : Str) : pyStrip (pyStrip l) = pyStrip l := by
  show pyRstrip (pyLstrip (pyStrip l)) = pyStrip l
  rw [pyLstrip_pyStrip l]
  show pyRstrip (pyRstrip (pyLstrip l)) = pyRstrip (pyLstrip l)
  exact pyRstrip_pyRstrip _

/-- Mapping a predicate preserving function commutes with dropWhile. -/
theorem map_dropWhile_comm {α : Type} (f : α → α) (p : α → Bool)
    (hp : ∀ c, p (f c) = p c) (l : List α) :
    (l.dropWhile p).map f = (l.map f).dropWhile p := by
  induction l with
  | nil => rfl
  | cons b t ih =>
    rw [List.dropWhile_cons, List.map_cons, List.dropWhile_cons, hp]
    by_cases hb : p b = true
    · rw [if_pos hb, if_pos hb]
      exact ih
    · rw [if_neg hb, if_neg hb, List.map_cons]

/-- Lower casing commutes with stripping. -/
theorem pyLower_pyStrip_comm (s : Str) : pyLower (pyStrip s) = pyStrip (pyLower s) := by
  unfold pyStrip pyRstrip pyLstrip pyLower
  rw [List.map_reverse, map_dropWhile_comm pyLowerChar wsChar wsChar_pyLowerChar,
    List.map_reverse, map_dropWhile_comm pyLowerChar wsChar wsChar_pyLowerChar]

/-- A stripped lowered string is a fixpoint of stripping and lowering. -/
theorem strip_lower_fix (t : Str) :
    pyStrip (pyLower (pyStrip (pyLower t))) = pyStrip (pyLower t) := by
  rw [pyLower_pyStrip_comm, pyLower_pyLower, pyStrip_idem]

/-! Lemmas about splitLast and splitext, toward the make_id claims. -/

/-- A list without the separator has no last separator. -/
theorem splitLast_eq_none (sep : Char) : ∀ l : Str, sep ∉ l → splitLast sep l = none := by
  intro l
  induction l with
  | nil => intro _; rfl
  | cons c cs ih =>
    intro h
    have hc : ¬(c = sep) := fun he => h (he ▸ List.mem_cons_self c cs)
    have hcs : sep ∉ cs := fun hm => h (List.mem_cons_of_mem c hm)
    simp only [splitLast, ih hcs]
    rw [if_neg hc]

/-- When splitLast finds nothing the separator is absent. -/
theorem splitLast_none_not_mem (sep : Char) : ∀ l : Str, splitLast sep l = none → sep ∉ l := by
  intro l
  induction l with
  | nil =>
    intro _
    simp
  | cons c cs ih =>
    intro h hm
    simp only [splitLast] at h
    rcases hs : splitLast sep cs with _ | ⟨b, a⟩
    · rw [hs] at h
      by_cases hc : c = sep
      · rw [if_pos hc] at h
        cases h
      · rcases List.mem_cons.mp hm with h1 | h1
        · exact hc h1.symm
        · exact ih hs h1
    · rw [hs] at h
      cases h

/-- The part after the last separator is separator free. -/
theorem splitLast_not_mem_snd (sep : Char) :
    ∀ l b a : Str, splitLast sep l = some (b, a) → sep ∉ a := by
  intro l
  induction l with
  | nil =>
    intro b a h
    cases h
  | cons c cs ih =>
    intro b a h
    simp only [splitLast] at h
    rcases hs : splitLast sep cs with _ | ⟨b', a'⟩
    · rw [hs] at h
      by_cases hc : c = sep
      · rw [if_pos hc] at h
        injection h with h2
        cases h2
        exact splitLast_none_not_mem sep cs hs
      · rw [if_neg hc] at h
        cases h
    · rw [hs] at h
      injection h with h2
      cases h2
      exact ih _ _ hs

/-- splitLast decomposes its input at the last separator. -/
theorem splitLast_spec (sep : Char) :
    ∀ l b a : Str, splitLast sep l = some (b, a) → l = b ++ sep :: a := by
  intro l
  induction l with
  | nil =>
    intro b a h
    cases h
  | cons c cs ih =>
    intro b a h
    simp only [splitLast] at h
    rcases hs : splitLast sep cs with _ | ⟨b', a'⟩
    · rw [hs] at h
      by_cases hc : c = sep
      · rw [if_pos hc] at h
        injection h with h2
        cases h2
        rw [hc]
        rfl
      · rw [if_neg hc] at h
        cases h
    · rw [hs] at h
      injection h with h2
      cases h2
      rw [List.cons_append, ← ih _ _ hs]

/-- Appending after the last separator extends the tail part. -/
theorem splitLast_append_sep (sep : Char) (xs ys : Str) (h : sep ∉ ys) :
    splitLast sep (xs ++ sep :: ys) = some (xs, ys) := by
  induction xs with
  | nil =>
    rw [List.nil_append]
    simp only [splitLast, splitLast_eq_none sep ys h]
    simp
  | cons c cs ih =>
    rw [List.cons_append]
    simp only [splitLast]
    rw [ih]

/-- Appending an extension to a path whose basename has a character other
than a dot splits back off exactly that extension. -/
theorem splitext_append_ext (s e : Str) (hdot : '.' ∉ e) (hslash : '/' ∉ e)
    (hbase : (basename s).any (fun c => c ≠ '.') = true) :
    splitext (s ++ '.' :: e) = (s, '.' :: e) := by
  have hsl : '/' ∉ ('.' :: e) := by
    intro hm
    rcases List.mem_cons.mp hm with h1 | h1
    · exact absurd h1 (by decide)
    · exact hslash h1
  rcases hd : splitLast '/' s with _ | ⟨d, b⟩
  · have hns : '/' ∉ s := splitLast_none_not_mem '/' s hd
    have hall : '/' ∉ s ++ '.' :: e := by
      intro hm
      rcases List.mem_append.mp hm with h1 | h1
      · exact hns h1
      · exact hsl h1
    have hb : basename s = s := by
      unfold basename
      rw [hd]
    rw [hb] at hbase
    unfold splitext
    rw [splitLast_eq_none '/' _ hall]
    simp only
    rw [splitLast_append_sep '.' s e hdot]
    simp only [hbase, if_pos]
    rw [List.nil_append]
  · have hsp := splitLast_spec '/' s d b hd
    have hnb : '/' ∉ b := splitLast_not_mem_snd '/' s d b hd
    have h1 : splitLast '/' (s ++ '.' :: e) = some (d, b ++ '.' :: e) := by
      rw [hsp, List.append_assoc, List.cons_append]
      apply splitLast_append_sep
      intro hm
      rcases List.mem_append.mp hm with h2 | h2
      · exact hnb h2
      · exact hsl h2
    have hb : basename s = b := by
      unfold basename
      rw [hd]
    rw [hb] at hbase
    unfold splitext
    rw [h1]
    simp only
    rw [splitLast_append_sep '.' b e hdot]
    simp only [hbase, if_pos]
    rw [hsp, List.append_assoc, List.singleton_append]

/-! Concrete runs used by the claim theorems, their witnesses and their
counterexamples. -/

/-- A configuration with the default library locations and no processors. -/
def cfgLib : Config :=
  { table := [ (str "static", str "/usr/local/lib/bookbind/static")
             , (str "templates", str "/usr/local/lib/bookbind/templates")
             , (str "styles", str "/usr/local/lib/bookbind/styles") ] }

/-- The urn a run of uuid.uuid4() could produce. -/
def uFresh : Str := str "urn:uuid:aaaaaaaa-1111-2222-3333-444444444444"

/-- An environment in which every collaborator succeeds with small fixed
outputs. -/
def envOk : Env :=
  { source_dir := str "/home/watts/greatbook"
  , readFile := fun _ => some (str "F")
  , listdir := fun _ => []
  , readable := fun _ => true
  , check_output := fun _ => some (str "OUT")
  , markdown := fun _ => some (str "H")
  , smarty := fun s => s
  , render := fun _ => str "R"
  , freshUrn := uFresh }

/-- A manifest whose metadata holds an isbn written with hyphens. -/
def mIsbn : Manifest :=
  { metadata := [(str "isbn", str "0-13-468599-7")], book := [] }

/-- A manifest whose metadata holds neither uuid nor isbn. -/
def mNoId : Manifest := { metadata := [], book := [] }

/-- A manifest whose metadata date is a month name and a year. -/
def mDateGood : Manifest :=
  { metadata := [(str "date", str "March 2020")], book := [] }

/-- A manifest whose metadata date matches no accepted format. -/
def mDateBad : Manifest :=
  { metadata := [(str "date", str "2020-13")], book := [] }

/-! Claim theorems. -/

/-- Claim C5: for every manifest, the spine holds exactly one reference per
chapter in book order, with the cover reference prepended as the first entry
iff a cover is declared, and the navmap holds, in book order, exactly the
chapters that have a title and are not marked linear false. -/
theorem C5_spine_and_navmap_order (m : Manifest) :
    generate_spine_items m =
      (match m.cover with
       | some _ => [str "<itemref idref=\"cover\"/>"]
       | none => []) ++
      m.book.map (fun chapter => str "<itemref idref=\"" ++ make_id chapter.file ++ str "\"/>") ∧
    generate_navmap m =
      (m.book.filter (fun chapter => chapter.title.isSome && chapter.linear != some false)).map
        (fun chapter => NavPoint.mk (make_id chapter.file ++ str ".xhtml")
          (chapter.title.getD []) (make_id chapter.file)) := by
  constructor
  · unfold generate_spine_items
    rw [foldl_append_map]
  · unfold generate_navmap
    rw [foldl_filter_append]
    rw [List.nil_append]
    congr 1
    apply List.filter_congr
    intro chapter _
    cases ht : chapter.title with
    | none => simp [ht]
    | some t =>
      cases hl : chapter.linear with
      | none => simp [ht, hl]
      | some b => cases b <;> simp [ht, hl]

/-- Claim C2: the claim states that for isbn 0-13-468599-7 the emitted
identifier record carries scheme ISBN and the value urn:isbn:0134685997.
The shipped module instead emits scheme IDENTIFIER and the raw value,
because generate_metadata reassigns elem to identifier before building the
scheme attribute and before the isbn test, leaving the urn rewrite dead;
the legacy top level module of the same repository implements exactly the
claimed value rewrite, showing the claim describes the intent and the
shipped code is the slip. -/
theorem C2_isbn_identifier_divergence :
    (generate_metadata mIsbn cfgLib uFresh).toOption.map (fun r => r.1) =
      some [ str "<dc:identifier id=\"bookid\" opf:scheme=\"IDENTIFIER\">0-13-468599-7</dc:identifier>"
           , str "<dc:language>en</dc:language>" ] ∧
    (str "<dc:identifier id=\"bookid\" opf:scheme=\"IDENTIFIER\">0-13-468599-7</dc:identifier>" ≠
      str "<dc:identifier id=\"bookid\" opf:scheme=\"ISBN\">urn:isbn:0134685997</dc:identifier>") ∧
    legacy_isbn_value (str "0-13-468599-7") = str "urn:isbn:0134685997" := by
  refine ⟨by decide, by decide, by decide⟩

/-- Claim C3: the claim states that with neither uuid nor isbn present
exactly one identifier record is emitted with scheme UUID and a fresh URN
value stored under the uuid key.  The shipped module does synthesize and
store the fresh URN and does emit exactly one identifier record with that
URN as its value, but the scheme attribute it emits is IDENTIFIER, not
UUID, through the same elem reassignment slip; the legacy module emits
scheme UUID. -/
theorem C3_uuid_scheme_divergence :
    (generate_metadata mNoId cfgLib uFresh).toOption.map (fun r => r.1) =
      some [ str "<dc:identifier id=\"bookid\" opf:scheme=\"IDENTIFIER\">urn:uuid:aaaaaaaa-1111-2222-3333-444444444444</dc:identifier>"
           , str "<dc:language>en</dc:language>" ] ∧
    (generate_metadata mNoId cfgLib uFresh).toOption.map
        (fun r => alookup (str "uuid") r.2.1.metadata) = some (some uFresh) ∧
    (str "urn:").isPrefixOf uFresh = true ∧
    ((generate_metadata mNoId cfgLib uFresh).toOption.map (fun r => r.1) ≠
      some [ str "<dc:identifier id=\"bookid\" opf:scheme=\"UUID\">urn:uuid:aaaaaaaa-1111-2222-3333-444444444444</dc:identifier>"
           , str "<dc:language>en</dc:language>" ]) := by
  refine ⟨by decide, by decide, by decide, by decide⟩

/-- Claim C4: a date of March 2020 is normalized to 2020-03, the first
matching format of the ordered list wins, and a date matching no accepted
format makes generate_metadata fail with the date error, producing no
items. -/
theorem C4_date_normalization :
    normalizeDate (str "March 2020") = some (str "2020-03") ∧
    (∀ (v : Str) (y m : Nat), strptimeYM (str "%B %Y") v = some (y, m) → 1900 ≤ y →
      normalizeDate v = some (ymStr y m)) ∧
    normalizeDate (str "2020-13") = none ∧
    generate_metadata mDateBad cfgLib uFresh = .error .dateFormatUnrecognized ∧
    (generate_metadata mDateGood cfgLib uFresh).toOption.map (fun r => r.1.head?) =
      some (some (str "<dc:date>2020-03</dc:date>")) := by
  refine ⟨by decide, ?_, by decide, by decide, by decide⟩
  intro v y m h hy
  simp only [normalizeDate, date_formats, firstDate, tryFormat, h]
  rw [if_pos hy]

/-- Witness for claim C4: the general first format wins statement applied at
the concrete date June 1984. -/
theorem C4_date_normalization_witness :
    strptimeYM (str "%B %Y") (str "June 1984") = some (1984, 6) ∧ 1900 ≤ 1984 ∧
    normalizeDate (str "June 1984") = some (ymStr 1984 6) :=
  ⟨by decide, by decide,
    C4_date_normalization.2.1 (str "June 1984") 1984 6 (by decide) (by decide)⟩

/-- An environment whose collaborators tag their outputs, so each branch of
the chapter dispatch yields a distinct result. -/
def envCase : Env :=
  { envOk with
    markdown := fun t => some (str "MD(" ++ t ++ str ")")
  , smarty := fun s => str "SP(" ++ s ++ str ")"
  , render := fun tc =>
      match tc with
      | .chapterXhtml content _ _ => str "TPL(" ++ content ++ str ")"
      | _ => str "R" }

/-- A chapter whose file needs an external processor. -/
def chRst : Chapter := Chapter.mk (str "notes.rst") none none none

/-- A configuration whose processors mapping handles the rst extension. -/
def cfgRst : Config :=
  { cfgLib with processors := [(str ".rst", str "rst2xhtml")] }

/-- A manifest that declares the same processors mapping at manifest level,
with an empty configuration level mapping. -/
def mManifProc : Manifest :=
  { metadata := [], book := [chRst], processors := [(str ".rst", str "rst2xhtml")] }

/-- Claim C6: generate_chapter selects exactly one branch from the lowered
extension of the chapter file, in priority order: a processor entry first;
otherwise the Markdown family is read, converted, normalized and wrapped in
the chapter template; otherwise xhtml is returned verbatim, bypassing the
template; otherwise the run fails with the unknown file type error. -/
theorem C6_chapter_dispatch (env : Env) (m : Manifest) (cfg : Config) (chapter : Chapter) :
    (∀ tpl, alookup (pyLower (splitext chapter.file).2) cfg.processors = some tpl →
      generate_chapter env m cfg chapter =
        (match env.check_output (pySplitWs (pyFormat tpl chapter.file)) with
         | some out => .ok (env.render (.chapterXhtml out (chapter_stylesheet m chapter) chapter.title))
         | none => .error .externalProcessorFailure)) ∧
    (alookup (pyLower (splitext chapter.file).2) cfg.processors = none →
      (pyLower (splitext chapter.file).2 = str ".md" ∨
       pyLower (splitext chapter.file).2 = str ".txt" ∨
       pyLower (splitext chapter.file).2 = str ".markdown") →
      generate_chapter env m cfg chapter =
        (match env.readFile (env.source_dir ++ ['/'] ++ chapter.file) with
         | none => .error .chapterReadFailure
         | some text =>
           match env.markdown text with
           | some html => .ok (env.render (.chapterXhtml (env.smarty html)
               (chapter_stylesheet m chapter) chapter.title))
           | none => .error .markdownFailure)) ∧
    (alookup (pyLower (splitext chapter.file).2) cfg.processors = none →
      pyLower (splitext chapter.file).2 = str ".xhtml" →
      generate_chapter env m cfg chapter =
        (match env.readFile (env.source_dir ++ ['/'] ++ chapter.file) with
         | some text => .ok text
         | none => .error .chapterReadFailure)) ∧
    (alookup (pyLower (splitext chapter.file).2) cfg.processors = none →
      ¬(pyLower (splitext chapter.file).2 = str ".md" ∨
        pyLower (splitext chapter.file).2 = str ".txt" ∨
        pyLower (splitext chapter.file).2 = str ".markdown") →
      pyLower (splitext chapter.file).2 ≠ str ".xhtml" →
      generate_chapter env m cfg chapter = .error (.weirdFile chapter.file)) := by
  refine ⟨?_, ?_, ?_, ?_⟩
  · intro tpl h
    simp only [generate_chapter, h]
  · intro h hmd
    simp only [generate_chapter, h]
    rw [if_pos hmd]
  · intro h hx
    simp only [generate_chapter, h]
    rw [if_neg (by rw [hx]; decide), if_pos hx]
  · intro h hmd hx
    simp only [generate_chapter, h]
    rw [if_neg hmd, if_neg hx]

/-- Witness for claim C6: the verbatim xhtml branch applied to a chapter
with an upper case extension; the file bytes come back unwrapped. -/
theorem C6_chapter_dispatch_witness :
    alookup (pyLower (splitext (str "ch.XHTML")).2) cfgLib.processors = none ∧
    pyLower (splitext (str "ch.XHTML")).2 = str ".xhtml" ∧
    generate_chapter envCase mNoId cfgLib (Chapter.mk (str "ch.XHTML") none none none) =
      .ok (str "F") :=
  ⟨by decide, by decide,
    (C6_chapter_dispatch envCase mNoId cfgLib (Chapter.mk (str "ch.XHTML") none none none)).2.2.1
      (by decide) (by decide)⟩

/-- Claim C7 counterexample: a processors entry present only at manifest
level is never consulted: the run fails with the unknown file type error
even though the external command would have succeeded, while the identical
entry at configuration level is used.  Under the claim, the merged table
holds the rst entry in both runs, so both runs should invoke the processor. -/
theorem C7_manifest_processors_ignored_cex :
    generate_chapter envCase mManifProc cfgLib chRst = .error (.weirdFile (str "notes.rst")) ∧
    generate_chapter envCase mNoId cfgRst chRst = .ok (str "TPL(OUT)") := by
  refine ⟨by decide, by decide⟩

/-- Claim C7 amended: the processor table consulted by generate_chapter is
the configuration level processors mapping alone; the manifest level
processors mapping is never consulted (changing it never changes the
result), and a configuration entry for the lowered extension selects the
processor branch. -/
theorem C7_processors_config_only :
    (∀ (env : Env) (m : Manifest) (cfg : Config) (chapter : Chapter) (P : List (Str × Str)),
      generate_chapter env { m with processors := P } cfg chapter =
        generate_chapter env m cfg chapter) ∧
    (∀ (env : Env) (m : Manifest) (cfg : Config) (chapter : Chapter) (tpl : Str),
      alookup (pyLower (splitext chapter.file).2) cfg.processors = some tpl →
      generate_chapter env m cfg chapter =
        (match env.check_output (pySplitWs (pyFormat tpl chapter.file)) with
         | some out => .ok (env.render (.chapterXhtml out (chapter_stylesheet m chapter) chapter.title))
         | none => .error .externalProcessorFailure)) := by
  constructor
  · intro env m cfg chapter P
    rfl
  · intro env m cfg chapter tpl h
    simp only [generate_chapter, h]

/-- Witness for claim C7: the configuration level entry for the rst
extension selects the processor branch on a concrete run. -/
theorem C7_processors_config_only_witness :
    alookup (pyLower (splitext (str "notes.rst")).2) cfgRst.processors = some (str "rst2xhtml") ∧
    generate_chapter envCase mNoId cfgRst chRst = .ok (str "TPL(OUT)") :=
  ⟨by decide,
    C7_processors_config_only.2 envCase mNoId cfgRst chRst (str "rst2xhtml") (by decide)⟩

/-- An environment with a readable images directory holding files with upper
case and lower case extensions, and a readable default stylesheet. -/
def envAssets : Env :=
  { envOk with
    readable := fun p =>
      p = str "/home/watts/greatbook/styles/default.css" ||
      p = str "/home/watts/greatbook/images"
  , listdir := fun _ => [str "logo.PNG", str "photo.JPG", str "icon.png"] }

/-- Claim C10: asset MIME lookup is case sensitive over the literal
extension: any extension that is not an exact key of mime_map, including
upper case variants of known extensions, maps to the octet stream type,
while chapter dispatch lowers extensions before matching. -/
theorem C10_asset_mime_case_sensitive :
    (∀ ex : Str, alookup ex mime_map = none → assetMime ex = str "application/octet-stream") ∧
    alookup (str ".PNG") mime_map = none ∧
    assetMime (str ".PNG") = str "application/octet-stream" ∧
    assetMime (str ".JPG") = str "application/octet-stream" ∧
    assetMime (str ".png") = str "image/png" ∧
    add_assets envAssets mNoId [] =
      [ asset_item imagesDir (str "logo.PNG")
      , asset_item imagesDir (str "photo.JPG")
      , asset_item imagesDir (str "icon.png") ] ∧
    asset_item imagesDir (str "logo.PNG") =
      str "<item id=\"images_logo\" href=\"images/logo.PNG\" media-type=\"application/octet-stream\"/>" ∧
    asset_item imagesDir (str "icon.png") =
      str "<item id=\"images_icon\" href=\"images/icon.png\" media-type=\"image/png\"/>" ∧
    generate_chapter envCase mNoId cfgLib (Chapter.mk (str "A.MD") none none none) =
      .ok (str "TPL(SP(MD(F)))") := by
  refine ⟨?_, by decide, by decide, by decide, by decide, by decide, by decide, by decide, by decide⟩
  intro ex h
  unfold assetMime
  rw [h]
  rfl

/-- Witness for claim C10: the octet stream default applied to a concrete
unknown extension. -/
theorem C10_asset_mime_case_sensitive_witness :
    alookup (str ".WEBM") mime_map = none ∧
    assetMime (str ".WEBM") = str "application/octet-stream" :=
  ⟨by decide, C10_asset_mime_case_sensitive.1 (str ".WEBM") (by decide)⟩

/-- A manifest whose metadata holds only a title. -/
def mTitle : Manifest := { metadata := [(str "title", str "T")], book := [] }

/-- Claim C9 counterexample: generate_metadata does modify the manifest: on
a metadata mapping without uuid and language the returned manifest differs
from the loaded one, because the uuid and language defaults are injected
into its metadata mapping in place. -/
theorem C9_manifest_mutation_cex :
    (generate_metadata mTitle cfgLib uFresh).toOption.map (fun r => r.2.1) ≠ some mTitle := by
  decide

/-- Claim C9 amended: the only modification a generation operation makes to
the loaded manifest is generate_metadata injecting the uuid default (when
neither uuid nor isbn is present) and the language default into the metadata
mapping; the book list, cover, stylesheet and processors are unchanged and
every metadata key other than uuid and language is preserved. -/
theorem C9_metadata_defaults_only_mutation (m : Manifest) (cfg : Config) (u : Str)
    (r : List Str × Manifest × Config) (h : generate_metadata m cfg u = .ok r) :
    r.2.1.book = m.book ∧ r.2.1.cover = m.cover ∧ r.2.1.stylesheet = m.stylesheet ∧
    r.2.1.processors = m.processors ∧
    r.2.1.metadata = mdWithDefaults m.metadata u ∧
    (∀ k : Str, k ≠ str "uuid" → k ≠ str "language" →
      alookup k r.2.1.metadata = alookup k m.metadata) := by
  unfold generate_metadata at h
  obtain ⟨a, _, h2⟩ := bind_ok h
  cases h2
  refine ⟨rfl, rfl, rfl, rfl, rfl, ?_⟩
  intro k h1 h2
  exact alookup_mdWithDefaults_ne m.metadata u k h1 h2

/-- Witness for claim C9: the run on the title only manifest succeeds and
its returned manifest metadata is exactly the defaulted mapping. -/
theorem C9_metadata_defaults_only_mutation_witness :
    generate_metadata mTitle cfgLib uFresh =
      .ok ((generate_metadata mTitle cfgLib uFresh).toOption.getD ([], mTitle, cfgLib)) ∧
    ((generate_metadata mTitle cfgLib uFresh).toOption.getD ([], mTitle, cfgLib)).2.1.metadata =
      mdWithDefaults mTitle.metadata uFresh := by
  have h : generate_metadata mTitle cfgLib uFresh =
      .ok ((generate_metadata mTitle cfgLib uFresh).toOption.getD ([], mTitle, cfgLib)) := by
    decide
  exact ⟨h, (C9_metadata_defaults_only_mutation mTitle cfgLib uFresh _ h).2.2.2.2.1⟩

/-- Claim C1: in every package produced by a successful make_book run the
first member is the mimetype member, stored uncompressed, and every later
member is deflated and is not named mimetype. -/
theorem C1_mimetype_first_and_stored (env : Env) (m : Manifest) (cfg : Config)
    (ms : List Member) (h : make_book env m cfg = .ok ms) :
    ms.head? = some (Member.mk (str "mimetype") .stored (str "application/epub+zip")) ∧
    ∀ x ∈ ms.tail, x.mode = .deflated ∧ x.name ≠ str "mimetype" := by
  unfold make_book at h
  obtain ⟨static, hstatic, h⟩ := bind_ok h
  obtain ⟨container, hcontainer, h⟩ := bind_ok h
  obtain ⟨ropf, hropf, h⟩ := bind_ok h
  obtain ⟨toc, htoc, h⟩ := bind_ok h
  obtain ⟨chapters, hch, h⟩ := bind_ok h
  obtain ⟨coverMembers, hcov, h⟩ := bind_ok h
  obtain ⟨styleMembers, hsty, h⟩ := bind_ok h
  obtain ⟨assets, hassets, h⟩ := bind_ok h
  cases h
  have hchP : ∀ y ∈ chapters, y.mode = .deflated ∧ y.name ≠ str "mimetype" := by
    refine mapE_ok_forall ?_ hch
    intro a b hb
    obtain ⟨content, _, h2⟩ := bind_ok hb
    cases h2
    exact ⟨rfl, ne_mimetype_of_headO rfl⟩
  have hcovP := cover_members_forall env ropf.2.1 ropf.2.2 hcov
  have hstyP := style_members_forall env ropf.2.1 ropf.2.2 hsty
  have hasP := asset_members_forall env hassets
  refine ⟨rfl, ?_⟩
  intro x hx
  simp only [List.tail_cons] at hx
  rcases List.mem_cons.mp hx with rfl | hx
  · exact ⟨rfl, ne_mimetype_of_headM rfl⟩
  rcases List.mem_cons.mp hx with rfl | hx
  · exact ⟨rfl, ne_mimetype_of_headO rfl⟩
  rcases List.mem_cons.mp hx with rfl | hx
  · exact ⟨rfl, ne_mimetype_of_headO rfl⟩
  rcases List.mem_append.mp hx with hx1 | hx1
  · rcases List.mem_append.mp hx1 with hx2 | hx2
    · rcases List.mem_append.mp hx2 with hx3 | hx3
      · exact hchP x hx3
      · exact hcovP x hx3
    · exact hstyP x hx2
  · exact hasP x hx1

/-- Claim C8 counterexample: re-appending an extension is not idempotent for
every filename and extension: the id made of a single dot grows a new name
when the txt extension is appended, because splitext refuses to split a
basename consisting only of dots. -/
theorem C8_make_id_reappend_cex :
    make_id (make_id (str ".") ++ str ".txt") ≠ make_id (str ".") := by decide

/-- Claim C8 amended: make_id is a fixpoint of lowering and trimming for
every filename; and re-appending an extension is idempotent for every
extension of the form dot followed by a nonempty suffix free of dots and
slashes, provided the basename of the derived id has at least one character
other than a dot. -/
theorem C8_make_id_fixpoint_and_reappend :
    (∀ f : Str, make_id f = pyStrip (pyLower (make_id f))) ∧
    (∀ f e : Str, e ≠ [] → '.' ∉ e → '/' ∉ e →
      (basename (make_id f)).any (fun c => c ≠ '.') = true →
      make_id (make_id f ++ '.' :: e) = make_id f) := by
  have hfix : ∀ f : Str, make_id f = pyStrip (pyLower (make_id f)) := by
    intro f
    unfold make_id
    exact (strip_lower_fix (splitext f).1).symm
  refine ⟨hfix, ?_⟩
  intro f e _ hdot hslash hbase
  have hsp := splitext_append_ext (make_id f) e hdot hslash hbase
  rw [show make_id (make_id f ++ '.' :: e) =
      pyStrip (pyLower (splitext (make_id f ++ '.' :: e)).1) from rfl, hsp]
  exact (hfix f).symm

/-- Witness for claim C8: the amended re-append idempotence applied at a
concrete chapter filename and extension. -/
theorem C8_make_id_fixpoint_and_reappend_witness :
    ((str "xhtml" : Str) ≠ [] ∧ '.' ∉ (str "xhtml") ∧ '/' ∉ (str "xhtml") ∧
      (basename (make_id (str "Intro.md"))).any (fun c => c ≠ '.') = true) ∧
    make_id (make_id (str "Intro.md") ++ '.' :: str "xhtml") = make_id (str "Intro.md") :=
  ⟨by decide,
    C8_make_id_fixpoint_and_reappend.2 (str "Intro.md") (str "xhtml")
      (by decide) (by decide) (by decide) (by decide)⟩

/-- A complete one chapter manifest for a full make_book run. -/
def mBook : Manifest :=
  { metadata := [(str "title", str "T"), (str "author", str "Doe, Jane")]
  , book := [Chapter.mk (str "intro.md") (some (str "Introduction")) none none] }

/-- Witness for claim C1: a concrete successful make_book run; its first
member is the stored mimetype member and every later member is deflated and
not named mimetype. -/
theorem C1_mimetype_first_and_stored_witness :
    make_book envOk mBook cfgLib =
      .ok ((make_book envOk mBook cfgLib).toOption.getD []) ∧
    ((make_book envOk mBook cfgLib).toOption.getD []).head? =
      some (Member.mk (str "mimetype") .stored (str "application/epub+zip")) ∧
    ((make_book envOk mBook cfgLib).toOption.getD []).tail.all
      (fun x => x.mode == Mode.deflated && x.name != str "mimetype") = true := by
  have h : make_book envOk mBook cfgLib =
      .ok ((make_book envOk mBook cfgLib).toOption.getD []) := by decide
  have hc := C1_mimetype_first_and_stored envOk mBook cfgLib _ h
  refine ⟨h, hc.1, ?_⟩
  rw [List.all_eq_true]
  intro x hx
  have hp := hc.2 x hx
  simp [hp.1, hp.2]

end Bookbind
